import Mathlib

/-!
# go-sqlcmd `internal/cmdparser/cmd.go`: a shallow embedding

The file `cmd.go` is a thin layer over the cobra/pflag command-line engine.
The embedding makes the state that the Go code reaches through pointers
explicit:

* `World` holds the process arguments (`os.Args`) and the caller-owned
  storage slots that `*string`, `*int` and `*bool` values point to;
* `Outcome` says how a call ends: a normal return, a Go `panic`, a
  termination through the output sink, or a process exit;
* `cobra.Command` and `FlagSet` are the parts of the engine that `cmd.go`
  reads and writes.

Every function of `cmd.go` keeps its Go name inside the namespace `Cmd`.
-/

namespace cmdparser

/-! ## Go values, process state and call outcomes -/

/-- A non-nil Go pointer, as the address of the slot it refers to. A nilable
pointer is an `Option Ptr`. -/
abbrev Ptr := Nat

/-- A non-nil Go `error`, represented by its message. A nilable `error` is an
`Option GoError`. -/
abbrev GoError := String

/-- Why the flag engine (pflag `FlagSet.AddFlag`) refuses a registration. The
engine panics with a message built from these data; the embedding keeps the
cause and its data and leaves the wording of the message aside. -/
inductive EngineRefusal where
  /-- A flag with this name is already registered in the set. -/
  | flagRedefined (name : String)
  /-- The shorthand is longer than one byte. -/
  | shorthandTooLong (shorthand : String)
  /-- The shorthand already belongs to the flag named `usedBy`. -/
  | shorthandInUse (shorthand : String) (usedBy : String)
  deriving DecidableEq, Repr

/-- The value carried by a Go `panic`: `panic("text")` and `panic(err)` in
`cmd.go`, or a panic raised inside the flag engine. -/
inductive PanicValue where
  | str (msg : String)
  | err (e : GoError)
  | engine (r : EngineRefusal)
  deriving DecidableEq, Repr

/-- How a call ends, together with the state it leaves behind. -/
inductive Outcome (σ : Type) where
  /-- The call returns normally. -/
  | ok (s : σ)
  /-- The call panics; a caller may recover. -/
  | panic (v : PanicValue) (s : σ)
  /-- The output sink reported `msg` through `Fatal` and ended processing. -/
  | fatal (msg : String) (s : σ)
  /-- The engine printed `err` and called `os.Exit(code)`. -/
  | exit (err : GoError) (code : Nat) (s : σ)

/-- Sequencing of Go statements: the next statement runs only after a normal
return. -/
def Outcome.bind {σ : Type} (r : Outcome σ) (k : σ → Outcome σ) : Outcome σ :=
  match r with
  | .ok s => k s
  | .panic v s => .panic v s
  | .fatal m s => .fatal m s
  | .exit e n s => .exit e n s

/-- The same outcome over another state type: the state is transported by
`g`, the way the call ended is kept. -/
def Outcome.map {σ τ : Type} (g : σ → τ) : Outcome σ → Outcome τ
  | .ok s => .ok (g s)
  | .panic v s => .panic v (g s)
  | .fatal m s => .fatal m (g s)
  | .exit e n s => .exit e n (g s)

/-- The state a call leaves behind, however it ends. -/
def Outcome.state {σ : Type} : Outcome σ → σ
  | .ok s => s
  | .panic _ s => s
  | .fatal _ s => s
  | .exit _ _ s => s

/-- The value of the panic a call ends in, if it ends in one. -/
def Outcome.panicValue {σ : Type} : Outcome σ → Option PanicValue
  | .panic v _ => some v
  | _ => none

/-- The variable `os.Args`: element 0, the path of the running binary, which a
Go process always has, and the elements after it. -/
structure OsArgs where
  arg0 : String
  rest : List String

/-- The process state outside the command object: `os.Args` and the storage
slots that flag and alias pointers refer to. -/
structure World where
  osArgs : OsArgs
  strs : Ptr → String
  ints : Ptr → Int
  bools : Ptr → Bool

/-- The assignment `*p = v` for a `*string`. -/
def World.setStr (w : World) (p : Ptr) (v : String) : World :=
  { w with strs := Function.update w.strs p v }

/-- The assignment `*p = v` for a `*int`. -/
def World.setInt (w : World) (p : Ptr) (v : Int) : World :=
  { w with ints := Function.update w.ints p v }

/-- The assignment `*p = v` for a `*bool`. -/
def World.setBool (w : World) (p : Ptr) (v : Bool) : World :=
  { w with bools := Function.update w.bools p v }

/-! ## Library functions used by `cmd.go` -/

/-- Go `strings.HasSuffix(s, suffix)`:
`len(s) >= len(suffix) && s[len(s)-len(suffix):] == suffix`. -/
def strings.HasSuffix (s suffix : String) : Bool :=
  decide (s.data.length ≥ suffix.data.length) &&
    (s.data.drop (s.data.length - suffix.data.length) == suffix.data)

/-- Go `fmt.Sprintf("# %v\n", d)` for a string `d`. -/
def sprintfHeader (d : String) : String := "# " ++ d ++ "\n"

/-- Go `fmt.Sprintf("  %v\n", s)` for a string `s`. -/
def sprintfStep (s : String) : String := "  " ++ s ++ "\n"

/-- Go `fmt.Sprintf` with the format of the usage-conflict message of `run`
(the two literals of the format are joined at compile time), both `%v` filled
with the string `flag`. -/
def sprintfConflict (flag : String) : String :=
  "Both an argument and the --" ++ flag ++
    " flag have been provided. Please provide either an argument or the --" ++ flag ++ " flag"

/-! ## The engine: pflag flag sets and cobra commands

These are the capabilities of the external engine that `cmd.go` consumes:
typed flag registration with an optional shorthand, reading a flag's current
value, the positional-argument constraint, and the list of child commands.
Registration follows pflag: the default is stored through the slot pointer,
and the engine panics on a flag name that is already registered, on a
shorthand longer than one byte, and on a shorthand that is already taken. -/

/-- The storage a flag is bound to, by kind (pflag `Value`). -/
inductive FlagValue where
  | string (p : Ptr)
  | int (p : Ptr)
  | bool (p : Ptr)
  deriving DecidableEq, Repr

/-- The pflag `Value.Type()` of a flag. -/
def FlagValue.Type : FlagValue → String
  | .string _ => "string"
  | .int _ => "int"
  | .bool _ => "bool"

/-- The default of a flag, by kind. -/
inductive DefaultValue where
  | string (v : String)
  | int (v : Int)
  | bool (v : Bool)
  deriving DecidableEq, Repr

/-- One registered flag (pflag `Flag`). `Changed` is set by the engine when
the flag is supplied on the command line. -/
structure Flag where
  Name : String
  Shorthand : String
  Usage : String
  Value : FlagValue
  DefValue : DefaultValue
  Changed : Bool
  deriving DecidableEq, Repr

/-- A pflag `FlagSet`: the registered flags in registration order (`formal`)
and the table from each one-byte shorthand in use to the name of the flag
that owns it (`shorthands`). -/
structure FlagSet where
  formal : List Flag
  shorthands : List (String × String)
  deriving DecidableEq, Repr

/-- The empty flag set. -/
def FlagSet.empty : FlagSet := { formal := [], shorthands := [] }

/-- Engine `FlagSet.Lookup(name)`: the flag registered under `name`, if any. -/
def FlagSet.Lookup (f : FlagSet) (name : String) : Option Flag :=
  f.formal.find? (fun fl => fl.Name == name)

/-- Engine `FlagSet.AddFlag(flag)`: panics when the name is already
registered; otherwise records the flag and, for a non-empty shorthand, panics
when it is longer than one byte or already taken, and otherwise records the
shorthand. The two shorthand panics come after the flag has been recorded. -/
def FlagSet.AddFlag (f : FlagSet) (w : World) (flag : Flag) : Outcome (FlagSet × World) :=
  if (FlagSet.Lookup f flag.Name).isSome then
    .panic (.engine (.flagRedefined flag.Name)) (f, w)
  else
    let f1 : FlagSet := { f with formal := f.formal ++ [flag] }
    if flag.Shorthand = "" then
      .ok (f1, w)
    else if flag.Shorthand.utf8ByteSize > 1 then
      .panic (.engine (.shorthandTooLong flag.Shorthand)) (f1, w)
    else
      match f1.shorthands.lookup flag.Shorthand with
      | some usedBy => .panic (.engine (.shorthandInUse flag.Shorthand usedBy)) (f1, w)
      | none =>
        .ok ({ f1 with shorthands := f1.shorthands ++ [(flag.Shorthand, flag.Name)] }, w)

/-- Engine `FlagSet.StringVarP(p, name, shorthand, value, usage)`: stores the
default in `*p` (pflag `newStringValue`), then registers a string flag bound to
`p` through `AddFlag`. -/
def FlagSet.StringVarP (f : FlagSet) (w : World) (p : Ptr) (name shorthand value usage : String) :
    Outcome (FlagSet × World) :=
  FlagSet.AddFlag f (w.setStr p value)
    { Name := name, Shorthand := shorthand, Usage := usage, Value := .string p,
      DefValue := .string value, Changed := false }

/-- Engine `FlagSet.StringVar`: `StringVarP` with an empty shorthand. -/
def FlagSet.StringVar (f : FlagSet) (w : World) (p : Ptr) (name value usage : String) :
    Outcome (FlagSet × World) :=
  FlagSet.StringVarP f w p name "" value usage

/-- Engine `FlagSet.IntVarP(p, name, shorthand, value, usage)`: stores the
default in `*p`, then registers an integer flag bound to `p`. -/
def FlagSet.IntVarP (f : FlagSet) (w : World) (p : Ptr) (name shorthand : String) (value : Int)
    (usage : String) : Outcome (FlagSet × World) :=
  FlagSet.AddFlag f (w.setInt p value)
    { Name := name, Shorthand := shorthand, Usage := usage, Value := .int p,
      DefValue := .int value, Changed := false }

/-- Engine `FlagSet.IntVar`: `IntVarP` with an empty shorthand. -/
def FlagSet.IntVar (f : FlagSet) (w : World) (p : Ptr) (name : String) (value : Int)
    (usage : String) : Outcome (FlagSet × World) :=
  FlagSet.IntVarP f w p name "" value usage

/-- Engine `FlagSet.BoolVarP(p, name, shorthand, value, usage)`: stores the
default in `*p`, then registers a boolean flag bound to `p`. -/
def FlagSet.BoolVarP (f : FlagSet) (w : World) (p : Ptr) (name shorthand : String) (value : Bool)
    (usage : String) : Outcome (FlagSet × World) :=
  FlagSet.AddFlag f (w.setBool p value)
    { Name := name, Shorthand := shorthand, Usage := usage, Value := .bool p,
      DefValue := .bool value, Changed := false }

/-- Engine `FlagSet.BoolVar`: `BoolVarP` with an empty shorthand. -/
def FlagSet.BoolVar (f : FlagSet) (w : World) (p : Ptr) (name : String) (value : Bool)
    (usage : String) : Outcome (FlagSet × World) :=
  FlagSet.BoolVarP f w p name "" value usage

/-- Engine `FlagSet.GetString(name)`: the current value of the string flag
`name`; an error when no such flag is registered or when it is not a string
flag. -/
def FlagSet.GetString (f : FlagSet) (w : World) (name : String) : String × Option GoError :=
  match FlagSet.Lookup f name with
  | none => ("", some ("flag accessed but not defined: " ++ name))
  | some fl =>
    match fl.Value with
    | .string p => (w.strs p, none)
    | v => ("", some ("trying to get string value of flag of type " ++ v.Type))

/-- The flags of a set with the one named `name` marked as changed. -/
def FlagSet.markChanged (f : FlagSet) (name : String) : FlagSet :=
  { f with formal := f.formal.map fun g => if g.Name == name then { g with Changed := true } else g }

/-- Engine: the command line supplies `--name=value` for a registered string
flag. The engine writes the value through the flag's pointer and marks the
flag as changed. -/
def FlagSet.SetString (f : FlagSet) (w : World) (name value : String) : FlagSet × World :=
  match FlagSet.Lookup f name with
  | some fl =>
    match fl.Value with
    | .string p => (f.markChanged name, w.setStr p value)
    | _ => (f, w)
  | none => (f, w)

/-- Engine: the command line supplies `--name=value` for a registered integer
flag, `value` being the parsed number. The engine writes it through the
flag's pointer and marks the flag as changed. -/
def FlagSet.SetInt (f : FlagSet) (w : World) (name : String) (value : Int) : FlagSet × World :=
  match FlagSet.Lookup f name with
  | some fl =>
    match fl.Value with
    | .int p => (f.markChanged name, w.setInt p value)
    | _ => (f, w)
  | none => (f, w)

/-- Engine `cobra.PositionalArgs` validators built by `cmd.go`. -/
inductive PositionalArgs where
  | MaximumNArgs (n : Nat)
  deriving DecidableEq, Repr

/-- Whether a validator accepts a list of positional arguments:
`cobra.MaximumNArgs(n)` rejects more than `n` of them. -/
def PositionalArgs.accepts : PositionalArgs → List String → Bool
  | .MaximumNArgs n, args => decide (args.length ≤ n)

/-- The fields of `cobra.Command` that `cmd.go` sets or reads. `Run` records
that the `Run` field is bound to the `run` method of the owning `Cmd`. -/
structure cobra.Command where
  Use : String
  Short : String
  Long : String
  Aliases : List String
  Example : String
  Run : Bool
  Args : Option PositionalArgs
  pflags : FlagSet
  commands : List cobra.Command

/-- The zero value of `cobra.Command`. -/
def cobra.Command.zero : cobra.Command :=
  { Use := "", Short := "", Long := "", Aliases := [], Example := "", Run := false,
    Args := none, pflags := FlagSet.empty, commands := [] }

/-- Engine `Command.Name()`: `Use` up to its first space. -/
def cobra.Command.Name (c : cobra.Command) : String :=
  String.mk (c.Use.data.takeWhile (fun ch => ch != ' '))

/-- Engine `Command.Commands()`: the child commands. The engine may sort
them by name; `IsSubCommand` does not depend on their order. -/
def cobra.Command.Commands (c : cobra.Command) : List cobra.Command :=
  c.commands

/-- Engine `Command.AddCommand(child)`: appends one child. -/
def cobra.Command.AddCommand (c : cobra.Command) (child : cobra.Command) : cobra.Command :=
  { c with commands := c.commands ++ [child] }

/-- Engine `cobra.CheckErr(err)`: nothing for a nil error; otherwise prints the
error and exits with status 1. -/
def cobra.CheckErr {σ : Type} (err : Option GoError) (s : σ) : Outcome σ :=
  match err with
  | none => .ok s
  | some e => .exit e 1 s

/-! ## The declarations `cmd.go` relies on -/

/-- Modelled from the spec: the output sink `output.Output` (package
`internal/output`, not part of `cmd.go`). Only its identity matters here. -/
structure Output where
  id : Nat
  deriving DecidableEq, Repr

/-- Modelled from the spec: `Output.Fatal(message)` (package `internal/output`,
not part of `cmd.go`), which "reports a message and terminates (or, under
test, raises a recoverable fault)": control does not come back to the
caller. -/
def Output.Fatal {σ : Type} (_o : Output) (msg : String) (s : σ) : Outcome σ :=
  .fatal msg s

/-- Modelled from the spec: the declaration of one example, `{Description,
Steps}` (declared outside `cmd.go`). -/
structure ExampleInfo where
  Description : String
  Steps : List String
  deriving DecidableEq, Repr

/-- Modelled from the spec: the declaration of the alias record
`FirstArgAlternativeForFlag`, `{Flag, Value}` with `Value` a nilable
`*string` (declared outside `cmd.go`). -/
structure AlternativeForFlagInfo where
  Flag : String
  Value : Option Ptr
  deriving DecidableEq, Repr

/-- Modelled from the spec: the declaration of `Options` (declared outside
`cmd.go`), with the fields `cmd.go` reads. `Run` is the user callback
`func()`, which may read and write the shared slots. -/
structure Options where
  Use : String
  Short : String
  Long : String
  Aliases : List String
  Examples : List ExampleInfo
  FirstArgAlternativeForFlag : Option AlternativeForFlagInfo
  Run : Option (World → Outcome World)

/-- Modelled from the spec: the declaration of `FlagOptions` (declared outside
`cmd.go`), with the fields `AddFlag` reads. The three kind slots are nilable
pointers. -/
structure FlagOptions where
  Name : String
  Shorthand : String
  Usage : String
  DefaultString : String
  DefaultInt : Int
  DefaultBool : Bool
  String : Option Ptr
  Int : Option Ptr
  Bool : Option Ptr
  deriving DecidableEq, Repr

/-- Modelled from the spec: the declaration of `Cmd` (declared outside
`cmd.go`): the declared options, the wrapped engine command and the output
sink. -/
structure Cmd where
  options : Options
  command : cobra.Command
  output : Output

/-! ## `cmd.go` -/

/-- A call on `c.command.PersistentFlags()`: the engine works on the flag set
of the wrapped command in place, so whatever state the call leaves behind is
the state of that command. -/
def Cmd.withPersistentFlags (c : Cmd) (r : Outcome (FlagSet × World)) : Outcome (Cmd × World) :=
  r.map fun s => ({ c with command := { c.command with pflags := s.1 } }, s.2)

/-- Lines 22-40 of `AddFlag`: the block guarded by `options.String != nil`. -/
def Cmd.AddFlag.stringBlock (options : FlagOptions) (s : Cmd × World) : Outcome (Cmd × World) :=
  match options.String with
  | none => .ok s
  | some p =>
    if options.Bool ≠ none ∨ options.Int ≠ none then
      .panic (.str "Only provide one type") s
    else if options.Shorthand = "" then
      s.1.withPersistentFlags
        (FlagSet.StringVar s.1.command.pflags s.2 p options.Name options.DefaultString options.Usage)
    else
      s.1.withPersistentFlags
        (FlagSet.StringVarP s.1.command.pflags s.2 p options.Name options.Shorthand
          options.DefaultString options.Usage)

/-- Lines 42-60 of `AddFlag`: the block guarded by `options.Int != nil`. -/
def Cmd.AddFlag.intBlock (options : FlagOptions) (s : Cmd × World) : Outcome (Cmd × World) :=
  match options.Int with
  | none => .ok s
  | some p =>
    if options.String ≠ none ∨ options.Bool ≠ none then
      .panic (.str "Only provide one type") s
    else if options.Shorthand = "" then
      s.1.withPersistentFlags
        (FlagSet.IntVar s.1.command.pflags s.2 p options.Name options.DefaultInt options.Usage)
    else
      s.1.withPersistentFlags
        (FlagSet.IntVarP s.1.command.pflags s.2 p options.Name options.Shorthand
          options.DefaultInt options.Usage)

/-- Lines 62-80 of `AddFlag`: the block guarded by `options.Bool != nil`. -/
def Cmd.AddFlag.boolBlock (options : FlagOptions) (s : Cmd × World) : Outcome (Cmd × World) :=
  match options.Bool with
  | none => .ok s
  | some p =>
    if options.String ≠ none ∨ options.Int ≠ none then
      .panic (.str "Only provide one type") s
    else if options.Shorthand = "" then
      s.1.withPersistentFlags
        (FlagSet.BoolVar s.1.command.pflags s.2 p options.Name options.DefaultBool options.Usage)
    else
      s.1.withPersistentFlags
        (FlagSet.BoolVarP s.1.command.pflags s.2 p options.Name options.Shorthand
          options.DefaultBool options.Usage)

/-- `func (c *Cmd) AddFlag(options FlagOptions)`: the two checks on `Name` and
`Usage`, then the three kind blocks one after the other. The state is the
command together with the world, since registration stores the default
through the slot pointer. -/
def Cmd.AddFlag (c : Cmd) (w : World) (options : FlagOptions) : Outcome (Cmd × World) :=
  if options.Name = "" then
    .panic (.str "Must provide name") (c, w)
  else if options.Usage = "" then
    .panic (.str "Must provide usage") (c, w)
  else
    (Cmd.AddFlag.stringBlock options (c, w)).bind fun s =>
    (Cmd.AddFlag.intBlock options s).bind fun s =>
    Cmd.AddFlag.boolBlock options s

/-- `func (c *Cmd) generateExamples() string`: the two nested loops that
write into the string builder `sb`. -/
def Cmd.generateExamples (c : Cmd) : String :=
  c.options.Examples.foldl
    (fun sb e => e.Steps.foldl (fun sb s => sb ++ sprintfStep s) (sb ++ sprintfHeader e.Description))
    ""

/-- `func (c *Cmd) addSubCommands(commands []Command)`: each `subCommand.Command()`
is added to the wrapped command, in order. -/
def Cmd.addSubCommands (c : Cmd) (commands : List Cmd) : Cmd :=
  commands.foldl
    (fun c subCommand => { c with command := c.command.AddCommand subCommand.command }) c

/-- `func (c *Cmd) DefineCommand(output output.Output, subCommands ...Command)`. -/
def Cmd.DefineCommand (c : Cmd) (output : Output) (subCommands : List Cmd) : Outcome Cmd :=
  if c.options.Use = "" then
    .panic (.str "Must implement command definition") c
  else
    let c := { c with output := output }
    let c := if c.options.Long = "" then
      { c with options := { c.options with Long := c.options.Short } } else c
    let c := { c with command :=
      { cobra.Command.zero with
        Use := c.options.Use, Short := c.options.Short, Long := c.options.Long,
        Aliases := c.options.Aliases, Example := c.generateExamples, Run := true } }
    let c := if c.options.FirstArgAlternativeForFlag ≠ none then
      { c with command := { c.command with Args := some (.MaximumNArgs 1) } }
    else
      { c with command := { c.command with Args := some (.MaximumNArgs 0) } }
    .ok (c.addSubCommands subCommands)

/-- The condition of the `if` in `CheckErr`:
`strings.HasSuffix(os.Args[0], ".test") || (len(os.Args) > 1 && os.Args[1] == "-test.v")`. -/
def Cmd.CheckErr.inUnitTest (w : World) : Bool :=
  strings.HasSuffix w.osArgs.arg0 ".test" ||
    (decide (1 + w.osArgs.rest.length > 1) && w.osArgs.rest.head? == some "-test.v")

/-- `func (c *Cmd) CheckErr(err error)`. -/
def Cmd.CheckErr (_c : Cmd) (w : World) (err : Option GoError) : Outcome World :=
  if Cmd.CheckErr.inUnitTest w then
    match err with
    | some e => .panic (.err e) w
    | none => .ok w
  else
    cobra.CheckErr err w

/-- The inner loop of `IsSubCommand` over `subCommand.Aliases`: `true` when
it reaches `break outer`. -/
def Cmd.IsSubCommand.aliasLoop (command : String) : List String → Bool
  | [] => false
  | al :: rest => if al == command then true else Cmd.IsSubCommand.aliasLoop command rest

/-- The loop labelled `outer` of `IsSubCommand`: the value of `valid` when
the loop ends. -/
def Cmd.IsSubCommand.outerLoop (command : String) : List cobra.Command → Bool
  | [] => false
  | subCommand :: rest =>
    if command == subCommand.Name then true
    else if Cmd.IsSubCommand.aliasLoop command subCommand.Aliases then true
    else Cmd.IsSubCommand.outerLoop command rest

/-- `func (c *Cmd) IsSubCommand(command string) (valid bool)`. -/
def Cmd.IsSubCommand (c : Cmd) (command : String) : Bool :=
  if command == "--help" then true
  else if command == "completion" then true
  else Cmd.IsSubCommand.outerLoop command c.command.Commands

/-- `func (c *Cmd) SetOptions(options Options)`. -/
def Cmd.SetOptions (c : Cmd) (options : Options) : Cmd :=
  { c with options := options }

/-- `func (c *Cmd) SetOutput(output output.Output)`. -/
def Cmd.SetOutput (c : Cmd) (output : Output) : Cmd :=
  { c with output := output }

/-- Lines 198-217 of `run`: the positional-argument rule. -/
def Cmd.run.positional (c : Cmd) (w : World) (args : List String) : Outcome World :=
  match c.options.FirstArgAlternativeForFlag with
  | none => .ok w
  | some alt =>
    match args with
    | [] => .ok w
    | arg0 :: _ =>
      let r := FlagSet.GetString c.command.pflags w alt.Flag
      (c.CheckErr w r.2).bind fun w =>
      (if r.1 ≠ "" then c.output.Fatal (sprintfConflict alt.Flag) w else .ok w).bind fun w =>
      match alt.Value with
      | none => .panic (.str "Must set Value") w
      | some p => .ok (w.setStr p arg0)

/-- Lines 219-221 of `run`: the call of the user callback. -/
def Cmd.run.callback (c : Cmd) (w : World) : Outcome World :=
  match c.options.Run with
  | some f => f w
  | none => .ok w

/-- `func (c *Cmd) run(_ *cobra.Command, args []string)`. -/
def Cmd.run (c : Cmd) (w : World) (args : List String) : Outcome World :=
  (Cmd.run.positional c w args).bind fun w => Cmd.run.callback c w

/-! ## Reference definitions and concrete configurations -/

/-- The example text in the words of the specification: for each example in
declaration order, the header line and then each step line indented by two
spaces, all concatenated. -/
def generateExamplesSpec (examples : List ExampleInfo) : String :=
  String.join (examples.map fun e =>
    "# " ++ e.Description ++ "\n" ++ String.join (e.Steps.map fun s => "  " ++ s ++ "\n"))

/-- The number of kind slots `String`, `Int`, `Bool` of a `FlagOptions` value
that are non-nil. -/
def FlagOptions.populated (o : FlagOptions) : Nat :=
  (if o.String ≠ none then 1 else 0) + (if o.Int ≠ none then 1 else 0) +
    (if o.Bool ≠ none then 1 else 0)

/-- A world whose argument vector is `["sqlcmd"]` and whose slots all hold
their zero values. -/
def exWorld : World :=
  { osArgs := { arg0 := "sqlcmd", rest := [] }, strs := fun _ => "", ints := fun _ => 0,
    bools := fun _ => false }

/-- The options of a command `use` without subcommands and without a `Run`
callback, whose alias record is `{Flag: "database", Value: value}`. -/
def exOptions (value : Option Ptr) : Options :=
  { Use := "use", Short := "Use a database", Long := "", Aliases := [], Examples := [],
    FirstArgAlternativeForFlag := some { Flag := "database", Value := value }, Run := none }

/-- The command `use` after `SetOptions` and `DefineCommand` with no
subcommands. -/
def exCmd (value : Option Ptr) : Cmd :=
  ((Cmd.SetOptions { options := exOptions none, command := cobra.Command.zero, output := ⟨0⟩ }
      (exOptions value)).DefineCommand ⟨0⟩ []).state

/-- The registration request for the string flag `--database`, bound to slot 1,
with the given default. -/
def exDatabaseFlag (dflt : String) : FlagOptions :=
  { Name := "database", Shorthand := "", Usage := "The database to use", DefaultString := dflt,
    DefaultInt := 0, DefaultBool := false, String := some 1, Int := none, Bool := none }

/-- The command `use` and the world after `AddFlag` has registered `--database`
with the given default; nothing has been parsed yet. -/
def exRegistered (value : Option Ptr) (dflt : String) : Cmd × World :=
  ((exCmd value).AddFlag exWorld (exDatabaseFlag dflt)).state

/-- The command `use` and the world after the engine has parsed
`--database=other` on top of `exRegistered value ""`. -/
def exSupplied (value : Option Ptr) : Cmd × World :=
  let s := exRegistered value ""
  let r := FlagSet.SetString s.1.command.pflags s.2 "database" "other"
  ({ s.1 with command := { s.1.command with pflags := r.1 } }, r.2)

/-- A registration request with `String` and `Int` both populated. -/
def exTwoKinds : FlagOptions :=
  { Name := "port", Shorthand := "p", Usage := "The port", DefaultString := "", DefaultInt := 1433,
    DefaultBool := false, String := some 1, Int := some 2, Bool := none }

/-- A registration request with a name and a usage text and no kind slot
populated. -/
def exNoKind : FlagOptions :=
  { Name := "verbose", Shorthand := "", Usage := "More output", DefaultString := "",
    DefaultInt := 0, DefaultBool := false, String := none, Int := none, Bool := none }

/-- A registration request for the integer flag `--port`, shorthand `-p`,
default 1433, bound to slot 2. -/
def exPortFlag : FlagOptions :=
  { Name := "port", Shorthand := "p", Usage := "The port", DefaultString := "", DefaultInt := 1433,
    DefaultBool := false, String := none, Int := some 2, Bool := none }

/-- A child command `list` with the alias `ls`. -/
def exList : cobra.Command :=
  { cobra.Command.zero with Use := "list [flags]", Aliases := ["ls"] }

/-- A child command `remove` with the aliases `rm` and `delete`. -/
def exRemove : cobra.Command :=
  { cobra.Command.zero with Use := "remove", Aliases := ["rm", "delete"] }

/-- The command `use` with the given children. -/
def exParent (children : List cobra.Command) : Cmd :=
  { exCmd (some 0) with command := { (exCmd (some 0)).command with commands := children } }

/-- A world like `exWorld`, with the argument vector of a run under `go test`. -/
def exTestWorld : World :=
  { exWorld with osArgs := { arg0 := "/tmp/go-build/cmdparser.test", rest := ["-test.run", "X"] } }

/-- A registration request for the string flag `--database` with the
two-byte shorthand `db`, bound to slot 1. -/
def exLongShorthand : FlagOptions :=
  { exDatabaseFlag "" with Shorthand := "db" }

/-- A registration request for the string flag `--password`, bound to slot 3,
with the shorthand `-p` that `exPortFlag` also asks for. -/
def exPasswordFlag : FlagOptions :=
  { Name := "password", Shorthand := "p", Usage := "The password", DefaultString := "",
    DefaultInt := 0, DefaultBool := false, String := some 3, Int := none, Bool := none }

/-- The command `use` and the world after `AddFlag` has registered the integer
flag `--port` (shorthand `-p`). -/
def exPortRegistered : Cmd × World :=
  ((exCmd (some 0)).AddFlag exWorld exPortFlag).state

/-- A command `connect` whose alias record names the integer flag `port`:
`{Flag: "port", Value: &v}` with `v` in slot 0, defined with no subcommands,
with `--port` registered by `AddFlag` and then supplied as `--port=5000`. -/
def exPortSupplied : Cmd × World :=
  let c0 : Cmd :=
    { options := { exOptions (some 0) with
        Use := "connect",
        FirstArgAlternativeForFlag := some { Flag := "port", Value := some 0 } },
      command := cobra.Command.zero, output := ⟨0⟩ }
  let s := ((c0.DefineCommand ⟨0⟩ []).state.AddFlag exWorld exPortFlag).state
  let r := FlagSet.SetInt s.1.command.pflags s.2 "port" 5000
  ({ s.1 with command := { s.1.command with pflags := r.1 } }, r.2)

/-! ## Theorems -/

theorem foldl_append_eq (l : List String) (acc : String) :
    l.foldl (fun r s => r ++ s) acc = acc ++ String.join l := by
  induction l generalizing acc with
  | nil => simp [String.join]
  | cons x xs ih =>
    have h1 := ih (acc ++ x)
    have h2 := ih ("" ++ x)
    simp only [List.foldl_cons, String.join] at *
    rw [h1, h2, String.append_assoc, String.empty_append]

theorem join_cons (x : String) (xs : List String) : String.join (x :: xs) = x ++ String.join xs := by
  have h := foldl_append_eq xs ("" ++ x)
  simp only [String.join, List.foldl_cons] at *
  rw [h, String.empty_append]

theorem steps_foldl (steps : List String) (acc : String) :
    steps.foldl (fun sb s => sb ++ sprintfStep s) acc
      = acc ++ String.join (steps.map fun s => "  " ++ s ++ "\n") := by
  induction steps generalizing acc with
  | nil => simp [String.join]
  | cons x xs ih =>
    rw [List.foldl_cons, ih, List.map_cons, join_cons]
    simp only [sprintfStep, String.append_assoc]

theorem examples_foldl (examples : List ExampleInfo) (acc : String) :
    examples.foldl
      (fun sb e => e.Steps.foldl (fun sb s => sb ++ sprintfStep s) (sb ++ sprintfHeader e.Description))
      acc = acc ++ generateExamplesSpec examples := by
  induction examples generalizing acc with
  | nil => simp [generateExamplesSpec, String.join]
  | cons e es ih =>
    rw [List.foldl_cons, ih, steps_foldl]
    simp only [generateExamplesSpec, List.map_cons, join_cons, sprintfHeader, String.append_assoc]

/-- C6. `generateExamples` returns the concatenation, over the examples in
declaration order, of the line `"# " + Description + "\n"` followed by, for
each step in order, `"  " + Step + "\n"`. It returns the empty string when
there are no examples, and `"# List items\n  tool list\n"` for the single
example `{Description: "List items", Steps: ["tool list"]}`. -/
theorem generateExamples_eq_concat (c : Cmd) :
    c.generateExamples = generateExamplesSpec c.options.Examples ∧
    ({ c with options := { c.options with Examples := [] } } : Cmd).generateExamples = "" ∧
    ({ c with options := { c.options with
        Examples := [{ Description := "List items", Steps := ["tool list"] }] } } : Cmd).generateExamples
      = "# List items\n  tool list\n" := by
  refine ⟨?_, rfl, rfl⟩
  unfold Cmd.generateExamples
  rw [examples_foldl, String.empty_append]

theorem aliasLoop_iff (command : String) (l : List String) :
    Cmd.IsSubCommand.aliasLoop command l = true ↔ command ∈ l := by
  induction l with
  | nil => simp [Cmd.IsSubCommand.aliasLoop]
  | cons a rest ih =>
    simp only [Cmd.IsSubCommand.aliasLoop, List.mem_cons]
    by_cases h : a = command
    · simp [h]
    · have h2 : ¬ command = a := fun e => h e.symm
      simp [h, h2, ih]

theorem outerLoop_iff (command : String) (l : List cobra.Command) :
    Cmd.IsSubCommand.outerLoop command l = true ↔
      ∃ sub ∈ l, sub.Name = command ∨ command ∈ sub.Aliases := by
  induction l with
  | nil => simp [Cmd.IsSubCommand.outerLoop]
  | cons sub rest ih =>
    simp only [Cmd.IsSubCommand.outerLoop, List.mem_cons, exists_eq_or_imp]
    by_cases h : command = sub.Name
    · simp [h]
    · have h2 : ¬ sub.Name = command := fun e => h e.symm
      by_cases ha : Cmd.IsSubCommand.aliasLoop command sub.Aliases = true
      · simp [h, ha, (aliasLoop_iff command sub.Aliases).1 ha]
      · have hb : ¬ command ∈ sub.Aliases := fun m => ha ((aliasLoop_iff command sub.Aliases).2 m)
        simp [h, h2, ha, hb, ih]

/-- C5. `IsSubCommand(name)` is true exactly when `name` is `"--help"`, or
`name` is `"completion"`, or some immediate child has `Name()` equal to `name`
or lists `name` among its `Aliases`; otherwise it is false. It is true for
`"--help"` and `"completion"` on a command with no children, and two commands
whose children are the same up to order give the same answer. -/
theorem IsSubCommand_iff (c : Cmd) (name : String) :
    (c.IsSubCommand name = true ↔
      name = "--help" ∨ name = "completion" ∨
        ∃ sub ∈ c.command.Commands, sub.Name = name ∨ name ∈ sub.Aliases) ∧
    ({ c with command := { c.command with commands := [] } } : Cmd).IsSubCommand "--help" = true ∧
    ({ c with command := { c.command with commands := [] } } : Cmd).IsSubCommand "completion" = true ∧
    (∀ c2 : Cmd, List.Perm c2.command.Commands c.command.Commands →
      c2.IsSubCommand name = c.IsSubCommand name) := by
  have key : ∀ d : Cmd, d.IsSubCommand name = true ↔
      name = "--help" ∨ name = "completion" ∨
        ∃ sub ∈ d.command.Commands, sub.Name = name ∨ name ∈ sub.Aliases := by
    intro d
    unfold Cmd.IsSubCommand
    by_cases h1 : name = "--help"
    · simp [h1]
    · by_cases h2 : name = "completion"
      · simp [h2]
      · simp [h1, h2, outerLoop_iff]
  refine ⟨key c, rfl, rfl, ?_⟩
  intro c2 hp
  have e : (c2.IsSubCommand name = true) ↔ (c.IsSubCommand name = true) := by
    rw [key c2, key c]
    constructor
    · rintro (h | h | ⟨sub, hm, hs⟩)
      · exact Or.inl h
      · exact Or.inr (Or.inl h)
      · exact Or.inr (Or.inr ⟨sub, hp.mem_iff.1 hm, hs⟩)
    · rintro (h | h | ⟨sub, hm, hs⟩)
      · exact Or.inl h
      · exact Or.inr (Or.inl h)
      · exact Or.inr (Or.inr ⟨sub, hp.mem_iff.2 hm, hs⟩)
  cases h : c2.IsSubCommand name <;> cases h2 : c.IsSubCommand name <;> simp_all

theorem HasSuffix_iff (s suffix : String) :
    strings.HasSuffix s suffix = true ↔ ∃ pre : String, s = pre ++ suffix := by
  unfold strings.HasSuffix
  constructor
  · intro h
    simp only [Bool.and_eq_true, decide_eq_true_eq, beq_iff_eq] at h
    refine ⟨⟨s.data.take (s.data.length - suffix.data.length)⟩, ?_⟩
    apply String.ext
    rw [String.data_append]
    show s.data = s.data.take (s.data.length - suffix.data.length) ++ suffix.data
    have e := List.take_append_drop (s.data.length - suffix.data.length) s.data
    rw [h.2] at e
    exact e.symm
  · rintro ⟨pre, rfl⟩
    simp only [String.data_append, List.length_append, Bool.and_eq_true, decide_eq_true_eq,
      beq_iff_eq]
    refine ⟨by omega, ?_⟩
    rw [Nat.add_sub_cancel, List.drop_left]

/-- C9. With `os.Args` as an explicit input, `CheckErr` takes its test branch
exactly when the first process argument ends with `".test"` or a second
process argument exists and equals `"-test.v"`. In the test branch a non-nil
error becomes a panic carrying that error and a nil error a normal return;
outside it the error goes unchanged to `cobra.CheckErr`, and `CheckErr`
itself raises no panic. -/
theorem CheckErr_policy (c : Cmd) (w : World) (err : Option GoError) :
    (Cmd.CheckErr.inUnitTest w = true ↔
      ((∃ pre : String, w.osArgs.arg0 = pre ++ ".test") ∨
        (∃ a1 tl, w.osArgs.rest = a1 :: tl ∧ a1 = "-test.v"))) ∧
    (Cmd.CheckErr.inUnitTest w = true →
      (∀ e, err = some e → c.CheckErr w err = .panic (.err e) w) ∧
      (err = none → c.CheckErr w err = .ok w)) ∧
    (Cmd.CheckErr.inUnitTest w = false →
      c.CheckErr w err = cobra.CheckErr err w ∧ ∀ v s, c.CheckErr w err ≠ .panic v s) := by
  refine ⟨?_, ?_, ?_⟩
  · unfold Cmd.CheckErr.inUnitTest
    rw [Bool.or_eq_true, HasSuffix_iff]
    apply or_congr Iff.rfl
    cases hr : w.osArgs.rest with
    | nil => simp
    | cons a1 tl => simp
  · intro h
    constructor
    · intro e he
      simp [Cmd.CheckErr, h, he]
    · intro he
      simp [Cmd.CheckErr, h, he]
  · intro h
    have e1 : c.CheckErr w err = cobra.CheckErr err w := by simp [Cmd.CheckErr, h]
    refine ⟨e1, ?_⟩
    intro v s
    rw [e1]
    cases err <;> simp [cobra.CheckErr]

theorem Outcome.ok_bind {σ : Type} (s : σ) (k : σ → Outcome σ) : (Outcome.ok s).bind k = k s :=
  rfl

theorem Outcome.bind_ok {σ : Type} (r : Outcome σ) : (r.bind fun s => .ok s) = r := by
  cases r <;> rfl

/-- C3. When `Name` is empty, or `Usage` is empty, or more than one of the
kind slots `String`, `Int`, `Bool` is non-nil, `AddFlag` panics and leaves the
command, its persistent flag set and the storage slots exactly as they were:
no flag is registered. -/
theorem AddFlag_invalid_panics (c : Cmd) (w : World) (o : FlagOptions)
    (h : o.Name = "" ∨ o.Usage = "" ∨ 1 < o.populated) :
    (∃ msg, c.AddFlag w o = .panic (.str msg) (c, w)) ∧
    (c.AddFlag w o).state.1.command.pflags = c.command.pflags ∧
    (c.AddFlag w o).state.2 = w := by
  have main : ∃ msg, c.AddFlag w o = .panic (.str msg) (c, w) := by
    by_cases hn : o.Name = ""
    · exact ⟨"Must provide name", by simp [Cmd.AddFlag, hn]⟩
    · by_cases hu : o.Usage = ""
      · exact ⟨"Must provide usage", by simp [Cmd.AddFlag, hn, hu]⟩
      · have hp : 1 < o.populated := by
          rcases h with h | h | h
          · exact absurd h hn
          · exact absurd h hu
          · exact h
        refine ⟨"Only provide one type", ?_⟩
        unfold FlagOptions.populated at hp
        cases hs : o.String <;> cases hi : o.Int <;> cases hb : o.Bool <;>
          simp [hs, hi, hb] at hp <;>
          simp [Cmd.AddFlag, hn, hu, Cmd.AddFlag.stringBlock, Cmd.AddFlag.intBlock,
            Cmd.AddFlag.boolBlock, Outcome.bind, hs, hi, hb]
  obtain ⟨msg, hm⟩ := main
  exact ⟨⟨msg, hm⟩, by rw [hm]; rfl, by rw [hm]; rfl⟩

/-- The case that the validation of `AddFlag` misses: when `Name` and `Usage`
are non-empty and no kind slot is populated, the three guarded blocks are
skipped, nothing panics, and the call returns with command and world
unchanged, where every other malformed request panics. -/
theorem AddFlag_skips_all_blocks (c : Cmd) (w : World) (o : FlagOptions)
    (hn : o.Name ≠ "") (hu : o.Usage ≠ "") (hp : o.populated = 0) :
    c.AddFlag w o = .ok (c, w) := by
  unfold FlagOptions.populated at hp
  cases hs : o.String <;> cases hi : o.Int <;> cases hb : o.Bool <;>
    simp [hs, hi, hb] at hp
  simp [Cmd.AddFlag, hn, hu, Cmd.AddFlag.stringBlock, Cmd.AddFlag.intBlock,
    Cmd.AddFlag.boolBlock, Outcome.bind, hs, hi, hb]

/-- C8, as amended. When `Name` and `Usage` are non-empty, exactly one of
`String`, `Int`, `Bool` is populated, `Name` is not yet registered in the
command's persistent flag set, and `Shorthand` is empty or a single byte that
no flag of the set uses yet, `AddFlag` returns normally and appends exactly
one flag to the persistent flag set. The flag has the given `Name`, `Usage`
and `Shorthand` (empty when none was given, and entered in the shorthand
table exactly when it is non-empty), the kind of the populated slot, the
matching default, and is bound to the provided slot, which now holds the
default. -/
theorem AddFlag_registers_one (c : Cmd) (w : World) (o : FlagOptions)
    (hn : o.Name ≠ "") (hu : o.Usage ≠ "") (hp : o.populated = 1)
    (hfresh : FlagSet.Lookup c.command.pflags o.Name = none)
    (hsh : o.Shorthand = "" ∨
      (o.Shorthand.utf8ByteSize ≤ 1 ∧ c.command.pflags.shorthands.lookup o.Shorthand = none)) :
    ∃ (fl : Flag) (w2 : World),
      c.AddFlag w o
        = .ok ({ c with command := { c.command with pflags :=
            { formal := c.command.pflags.formal ++ [fl],
              shorthands :=
                if o.Shorthand = "" then c.command.pflags.shorthands
                else c.command.pflags.shorthands ++ [(o.Shorthand, o.Name)] } } }, w2) ∧
      fl.Name = o.Name ∧ fl.Usage = o.Usage ∧ fl.Shorthand = o.Shorthand ∧ fl.Changed = false ∧
      (∀ p, o.String = some p →
        fl.Value = .string p ∧ fl.DefValue = .string o.DefaultString ∧
          w2 = w.setStr p o.DefaultString) ∧
      (∀ p, o.Int = some p →
        fl.Value = .int p ∧ fl.DefValue = .int o.DefaultInt ∧ w2 = w.setInt p o.DefaultInt) ∧
      (∀ p, o.Bool = some p →
        fl.Value = .bool p ∧ fl.DefValue = .bool o.DefaultBool ∧
          w2 = w.setBool p o.DefaultBool) := by
  unfold FlagOptions.populated at hp
  have hreg : ∀ (w1 : World) (fl : Flag), fl.Name = o.Name → fl.Shorthand = o.Shorthand →
      c.withPersistentFlags (FlagSet.AddFlag c.command.pflags w1 fl)
        = .ok ({ c with command := { c.command with pflags :=
            { formal := c.command.pflags.formal ++ [fl],
              shorthands :=
                if o.Shorthand = "" then c.command.pflags.shorthands
                else c.command.pflags.shorthands ++ [(o.Shorthand, o.Name)] } } }, w1) := by
    intro w1 fl h1 h2
    by_cases hsh0 : o.Shorthand = ""
    · simp [FlagSet.AddFlag, Cmd.withPersistentFlags, Outcome.map, h1, h2, hfresh, hsh0]
    · rcases hsh with hsh | ⟨hlen, hfree⟩
      · exact absurd hsh hsh0
      · have hl : ¬ (1 < o.Shorthand.utf8ByteSize) := by omega
        simp [FlagSet.AddFlag, Cmd.withPersistentFlags, Outcome.map, h1, h2, hfresh, hsh0, hl,
          hfree]
  cases hs : o.String with
  | some p =>
    cases hi : o.Int <;> cases hb : o.Bool <;> simp [hs, hi, hb] at hp
    refine ⟨{ Name := o.Name, Shorthand := o.Shorthand, Usage := o.Usage, Value := .string p,
              DefValue := .string o.DefaultString, Changed := false },
            w.setStr p o.DefaultString, ?_, rfl, rfl, rfl, rfl, ?_, ?_, ?_⟩
    · rw [← hreg (w.setStr p o.DefaultString) _ rfl rfl]
      by_cases hsh0 : o.Shorthand = "" <;>
        simp [Cmd.AddFlag, hn, hu, Cmd.AddFlag.stringBlock, Cmd.AddFlag.intBlock,
          Cmd.AddFlag.boolBlock, Outcome.ok_bind, Outcome.bind_ok, hs, hi, hb, hsh0, FlagSet.StringVar,
          FlagSet.StringVarP]
    · intro q hq
      cases hq
      exact ⟨rfl, rfl, rfl⟩
    · intro q hq
      cases hq
    · intro q hq
      cases hq
  | none =>
    cases hi : o.Int with
    | some p =>
      cases hb : o.Bool <;> simp [hs, hi, hb] at hp
      refine ⟨{ Name := o.Name, Shorthand := o.Shorthand, Usage := o.Usage, Value := .int p,
                DefValue := .int o.DefaultInt, Changed := false },
              w.setInt p o.DefaultInt, ?_, rfl, rfl, rfl, rfl, ?_, ?_, ?_⟩
      · rw [← hreg (w.setInt p o.DefaultInt) _ rfl rfl]
        by_cases hsh0 : o.Shorthand = "" <;>
          simp [Cmd.AddFlag, hn, hu, Cmd.AddFlag.stringBlock, Cmd.AddFlag.intBlock,
            Cmd.AddFlag.boolBlock, Outcome.ok_bind, Outcome.bind_ok, hs, hi, hb, hsh0, FlagSet.IntVar,
            FlagSet.IntVarP]
      · intro q hq
        cases hq
      · intro q hq
        cases hq
        exact ⟨rfl, rfl, rfl⟩
      · intro q hq
        cases hq
    | none =>
      cases hb : o.Bool with
      | none => simp [hs, hi, hb] at hp
      | some p =>
        refine ⟨{ Name := o.Name, Shorthand := o.Shorthand, Usage := o.Usage, Value := .bool p,
                  DefValue := .bool o.DefaultBool, Changed := false },
                w.setBool p o.DefaultBool, ?_, rfl, rfl, rfl, rfl, ?_, ?_, ?_⟩
        · rw [← hreg (w.setBool p o.DefaultBool) _ rfl rfl]
          by_cases hsh0 : o.Shorthand = "" <;>
            simp [Cmd.AddFlag, hn, hu, Cmd.AddFlag.stringBlock, Cmd.AddFlag.intBlock,
              Cmd.AddFlag.boolBlock, Outcome.ok_bind, Outcome.bind_ok, hs, hi, hb, hsh0, FlagSet.BoolVar,
              FlagSet.BoolVarP]
        · intro q hq
          cases hq
        · intro q hq
          cases hq
        · intro q hq
          cases hq
          exact ⟨rfl, rfl, rfl⟩

theorem addSubCommands_command (subs : List Cmd) (c : Cmd) :
    (c.addSubCommands subs).command =
      { c.command with commands := c.command.commands ++ subs.map (fun s => s.command) } := by
  induction subs generalizing c with
  | nil =>
    obtain ⟨o, cmd, out⟩ := c
    cases cmd
    simp [Cmd.addSubCommands]
  | cons s rest ih =>
    have h := ih { c with command := c.command.AddCommand s.command }
    simp only [Cmd.addSubCommands, List.foldl_cons] at h ⊢
    rw [h]
    simp [cobra.Command.AddCommand]

/-- C10. When `Use` is non-empty, `DefineCommand` returns a command whose
positional-argument validator is `MaximumNArgs(1)` if
`FirstArgAlternativeForFlag` is set and `MaximumNArgs(0)` otherwise (so it
accepts at most one, respectively zero, arguments), and whose `Long` equals
`Options.Long` when that is non-empty and `Options.Short` otherwise. When
`Use` is empty, `DefineCommand` panics with "Must implement command
definition" and the command object is untouched. -/
theorem DefineCommand_builds (c : Cmd) (output : Output) (subs : List Cmd) :
    (c.options.Use ≠ "" →
      ∃ d : Cmd, c.DefineCommand output subs = .ok d ∧
        d.command.Args = some (.MaximumNArgs
          (if c.options.FirstArgAlternativeForFlag ≠ none then 1 else 0)) ∧
        (∀ v args, d.command.Args = some v →
          (v.accepts args = true ↔
            args.length ≤ (if c.options.FirstArgAlternativeForFlag ≠ none then 1 else 0))) ∧
        d.command.Long = (if c.options.Long ≠ "" then c.options.Long else c.options.Short)) ∧
    (c.options.Use = "" →
      c.DefineCommand output subs = .panic (.str "Must implement command definition") c) := by
  constructor
  · intro hu
    have hargs : ∀ d : Cmd, c.DefineCommand output subs = .ok d →
        d.command.Args = some (.MaximumNArgs
          (if c.options.FirstArgAlternativeForFlag ≠ none then 1 else 0)) ∧
        d.command.Long = (if c.options.Long ≠ "" then c.options.Long else c.options.Short) := by
      intro d hd
      simp only [Cmd.DefineCommand, hu, if_false] at hd
      injection hd with hd
      subst hd
      rw [addSubCommands_command]
      by_cases hl : c.options.Long = "" <;>
        by_cases hf : c.options.FirstArgAlternativeForFlag = none <;> simp [hl, hf]
    have hex : ∃ d : Cmd, c.DefineCommand output subs = .ok d := by
      simp only [Cmd.DefineCommand, hu, if_false]
      exact ⟨_, rfl⟩
    obtain ⟨d, hd⟩ := hex
    refine ⟨d, hd, (hargs d hd).1, ?_, (hargs d hd).2⟩
    intro v args hv
    rw [(hargs d hd).1] at hv
    injection hv with hv
    subst hv
    simp [PositionalArgs.accepts]
  · intro hu
    simp [Cmd.DefineCommand, hu]

theorem CheckErr_nil (c : Cmd) (w : World) : c.CheckErr w none = .ok w := by
  unfold Cmd.CheckErr
  cases Cmd.CheckErr.inUnitTest w <;> simp [cobra.CheckErr]

/-- C1, as amended. When the alias record is `{Flag: f, Value: &v}`, `run` is
invoked with `args = [a]`, and `f` is a registered string flag of the command
whose current value is empty, then `run` writes `a` into `v` and only then
invokes the `Run` callback, on the world in which `v` already equals `a`;
without a callback `run` returns with `v` equal to `a`. -/
theorem run_positional_writes_value (c : Cmd) (w : World) (a f : String) (v : Ptr)
    (hopt : c.options.FirstArgAlternativeForFlag = some { Flag := f, Value := some v })
    (hflag : FlagSet.GetString c.command.pflags w f = ("", none)) :
    (w.setStr v a).strs v = a ∧
    Cmd.run.positional c w [a] = .ok (w.setStr v a) ∧
    c.run w [a] = Cmd.run.callback c (w.setStr v a) ∧
    (c.options.Run = none → c.run w [a] = .ok (w.setStr v a)) ∧
    (∀ cb, c.options.Run = some cb → c.run w [a] = cb (w.setStr v a)) := by
  have hp : Cmd.run.positional c w [a] = .ok (w.setStr v a) := by
    simp [Cmd.run.positional, hopt, hflag, CheckErr_nil, Outcome.bind]
  have hr : c.run w [a] = Cmd.run.callback c (w.setStr v a) := by
    simp [Cmd.run, hp, Outcome.bind]
  refine ⟨by simp [World.setStr], hp, hr, ?_, ?_⟩
  · intro hn
    rw [hr]
    simp [Cmd.run.callback, hn]
  · intro cb hcb
    rw [hr]
    simp [Cmd.run.callback, hcb]

/-- C2, as amended. When the alias record is `{Flag: f, Value: &v}`, `run` is
invoked with a positional argument, and `f` is a registered string flag of the
command's own persistent flag set whose current value is non-empty, then the
output sink's `Fatal` receives exactly "Both an argument and the --f flag have
been provided. Please provide either an argument or the --f flag" with `f`
substituted twice, processing ends there (the `Run` callback is not reached),
and `v` still holds its pre-call value. -/
theorem run_conflict_is_fatal (c : Cmd) (w : World) (a : String) (rest : List String)
    (f val : String) (v : Ptr)
    (hopt : c.options.FirstArgAlternativeForFlag = some { Flag := f, Value := some v })
    (hflag : FlagSet.GetString c.command.pflags w f = (val, none)) (hne : val ≠ "") :
    c.run w (a :: rest) =
      .fatal ("Both an argument and the --" ++ f ++
        " flag have been provided. Please provide either an argument or the --" ++ f ++ " flag") w ∧
    (c.run w (a :: rest)).state.strs v = w.strs v := by
  have hr : c.run w (a :: rest) = .fatal (sprintfConflict f) w := by
    simp [Cmd.run, Cmd.run.positional, hopt, hflag, CheckErr_nil, Outcome.bind, hne, Output.Fatal]
  exact ⟨hr, by rw [hr]; rfl⟩

/-- C7, as amended. When the alias record has a nil `Value`, `run` panics with
"Must set Value" whenever a positional argument is supplied and the named
flag is a registered string flag whose current value is empty. Without a
positional argument `run` does not look at `Value`, whatever the flags are,
and goes on to the `Run` callback. -/
theorem run_nil_value_panics (c : Cmd) (w : World) (f : String)
    (hopt : c.options.FirstArgAlternativeForFlag = some { Flag := f, Value := none }) :
    (∀ (a : String) (rest : List String),
      FlagSet.GetString c.command.pflags w f = ("", none) →
        c.run w (a :: rest) = .panic (.str "Must set Value") w) ∧
    c.run w [] = Cmd.run.callback c w ∧
    (c.options.Run = none → c.run w [] = .ok w) ∧
    (∀ cb, c.options.Run = some cb → c.run w [] = cb w) := by
  have hr : c.run w [] = Cmd.run.callback c w := by
    simp [Cmd.run, Cmd.run.positional, hopt, Outcome.bind]
  refine ⟨?_, hr, ?_, ?_⟩
  · intro a rest hflag
    simp [Cmd.run, Cmd.run.positional, hopt, hflag, CheckErr_nil, Outcome.bind]
  · intro hn
    rw [hr]
    simp [Cmd.run.callback, hn]
  · intro cb hcb
    rw [hr]
    simp [Cmd.run.callback, hcb]

/-! ### Concrete instances -/

/-- C1, instance of the amended statement: `--database` is registered with an
empty default and not supplied; the positional argument `"mydb"` ends up in
the target slot. -/
theorem run_positional_writes_value_witness :
    (exRegistered (some 0) "").1.options.FirstArgAlternativeForFlag
        = some { Flag := "database", Value := some 0 } ∧
    FlagSet.GetString (exRegistered (some 0) "").1.command.pflags (exRegistered (some 0) "").2
        "database" = ("", none) ∧
    (((exRegistered (some 0) "").2.setStr 0 "mydb").strs 0 = "mydb" ∧
      Cmd.run.positional (exRegistered (some 0) "").1 (exRegistered (some 0) "").2 ["mydb"]
        = .ok ((exRegistered (some 0) "").2.setStr 0 "mydb") ∧
      (exRegistered (some 0) "").1.run (exRegistered (some 0) "").2 ["mydb"]
        = Cmd.run.callback (exRegistered (some 0) "").1 ((exRegistered (some 0) "").2.setStr 0 "mydb") ∧
      ((exRegistered (some 0) "").1.options.Run = none →
        (exRegistered (some 0) "").1.run (exRegistered (some 0) "").2 ["mydb"]
          = .ok ((exRegistered (some 0) "").2.setStr 0 "mydb")) ∧
      (∀ cb, (exRegistered (some 0) "").1.options.Run = some cb →
        (exRegistered (some 0) "").1.run (exRegistered (some 0) "").2 ["mydb"]
          = cb ((exRegistered (some 0) "").2.setStr 0 "mydb"))) :=
  ⟨rfl, rfl,
    run_positional_writes_value (exRegistered (some 0) "").1 (exRegistered (some 0) "").2
      "mydb" "database" 0 rfl rfl⟩

/-- C1, counterexample: `--database` is registered with the default `"master"`
and is not supplied on the command line (`Changed` is false). `run` with the
positional argument `"mydb"` reads the flag's current value `"master"`,
reports the usage conflict, and the target slot 0 is not `"mydb"`. -/
theorem run_unsupplied_default_conflict :
    (exRegistered (some 0) "master").1.options.FirstArgAlternativeForFlag
        = some { Flag := "database", Value := some 0 } ∧
    (FlagSet.Lookup (exRegistered (some 0) "master").1.command.pflags "database").map Flag.Changed
        = some false ∧
    (exRegistered (some 0) "master").1.run (exRegistered (some 0) "master").2 ["mydb"]
        = .fatal "Both an argument and the --database flag have been provided. Please provide either an argument or the --database flag"
            (exRegistered (some 0) "master").2 ∧
    ((exRegistered (some 0) "master").1.run (exRegistered (some 0) "master").2 ["mydb"]).state.strs 0
        ≠ "mydb" :=
  ⟨rfl, by decide, rfl, by decide⟩

/-- C2, instance of the amended statement: positional `"mydb"` together with
`--database=other`, `--database` being a string flag of the command. -/
theorem run_conflict_is_fatal_witness :
    (exSupplied (some 0)).1.options.FirstArgAlternativeForFlag
        = some { Flag := "database", Value := some 0 } ∧
    FlagSet.GetString (exSupplied (some 0)).1.command.pflags (exSupplied (some 0)).2 "database"
        = ("other", none) ∧
    ("other" : String) ≠ "" ∧
    ((exSupplied (some 0)).1.run (exSupplied (some 0)).2 ("mydb" :: []) =
        .fatal ("Both an argument and the --" ++ "database" ++
          " flag have been provided. Please provide either an argument or the --" ++ "database" ++
          " flag") (exSupplied (some 0)).2 ∧
      ((exSupplied (some 0)).1.run (exSupplied (some 0)).2 ("mydb" :: [])).state.strs 0
        = (exSupplied (some 0)).2.strs 0) :=
  ⟨rfl, rfl, by decide,
    run_conflict_is_fatal (exSupplied (some 0)).1 (exSupplied (some 0)).2 "mydb" [] "database"
      "other" 0 rfl rfl (by decide)⟩

/-- C2, counterexample: the alias record names the flag `port`, which the
command registered as an integer flag and which is supplied as `--port=5000`
(`Changed` is true). `run` with the positional argument `"mydb"` gets an
error from `GetString`, hands it to `CheckErr`, and the process exits through
`cobra.CheckErr`: `Fatal` is never called. -/
theorem run_supplied_int_flag_exits :
    exPortSupplied.1.options.FirstArgAlternativeForFlag
        = some { Flag := "port", Value := some 0 } ∧
    (FlagSet.Lookup exPortSupplied.1.command.pflags "port").map Flag.Changed = some true ∧
    (FlagSet.Lookup exPortSupplied.1.command.pflags "port").map Flag.Value = some (.int 2) ∧
    exPortSupplied.2.ints 2 = 5000 ∧
    exPortSupplied.1.run exPortSupplied.2 ["mydb"]
        = .exit "trying to get string value of flag of type int" 1 exPortSupplied.2 :=
  ⟨rfl, by decide, by decide, by decide, rfl⟩

/-- C3, instance: `String` and `Int` both populated. -/
theorem AddFlag_invalid_panics_witness :
    (exTwoKinds.Name = "" ∨ exTwoKinds.Usage = "" ∨ 1 < exTwoKinds.populated) ∧
    ((∃ msg, (exCmd (some 0)).AddFlag exWorld exTwoKinds
        = .panic (.str msg) (exCmd (some 0), exWorld)) ∧
      ((exCmd (some 0)).AddFlag exWorld exTwoKinds).state.1.command.pflags
        = (exCmd (some 0)).command.pflags ∧
      ((exCmd (some 0)).AddFlag exWorld exTwoKinds).state.2 = exWorld) :=
  ⟨by decide, AddFlag_invalid_panics (exCmd (some 0)) exWorld exTwoKinds (by decide)⟩

/-- C4, the code at the failing input: a request with a name and a usage text
and no kind slot populated. The claim asks for an abort; `AddFlag` returns
normally, registers nothing and writes no slot. -/
theorem AddFlag_no_kind_no_abort :
    exNoKind.Name ≠ "" ∧ exNoKind.Usage ≠ "" ∧
    exNoKind.String = none ∧ exNoKind.Int = none ∧ exNoKind.Bool = none ∧
    (exCmd (some 0)).AddFlag exWorld exNoKind = .ok (exCmd (some 0), exWorld) :=
  ⟨by decide, by decide, rfl, rfl, rfl, rfl⟩

/-- C5, instance: the children `list` and `remove` in both orders. -/
theorem IsSubCommand_iff_witness :
    List.Perm (exParent [exRemove, exList]).command.Commands
        (exParent [exList, exRemove]).command.Commands ∧
    (exParent [exRemove, exList]).IsSubCommand "rm" = (exParent [exList, exRemove]).IsSubCommand "rm" ∧
    (exParent [exList, exRemove]).IsSubCommand "rm" = true ∧
    (exParent [exList, exRemove]).IsSubCommand "list" = true ∧
    (exParent [exList, exRemove]).IsSubCommand "[flags]" = false :=
  ⟨List.Perm.swap exList exRemove [],
    (IsSubCommand_iff (exParent [exList, exRemove]) "rm").2.2.2 (exParent [exRemove, exList])
      (List.Perm.swap exList exRemove []),
    by decide, by decide, by decide⟩

/-- C7, counterexample: the alias record has a nil `Value`. Without a
positional argument `run` returns normally; with the positional argument
`"mydb"` and `--database=other` it ends in the usage-conflict report, not in
the panic "Must set Value". -/
theorem run_nil_value_no_abort :
    (exCmd none).options.FirstArgAlternativeForFlag = some { Flag := "database", Value := none } ∧
    (exCmd none).run exWorld [] = .ok exWorld ∧
    (exSupplied none).1.options.FirstArgAlternativeForFlag
        = some { Flag := "database", Value := none } ∧
    (exSupplied none).1.run (exSupplied none).2 ["mydb"]
        = .fatal "Both an argument and the --database flag have been provided. Please provide either an argument or the --database flag"
            (exSupplied none).2 :=
  ⟨rfl, rfl, rfl, rfl⟩

/-- C7, instance of the amended statement: with `--database` registered and
empty the positional argument `"mydb"` ends in the panic, and without a
positional argument `run` returns normally, also when no flag is registered
at all. -/
theorem run_nil_value_panics_witness :
    (exRegistered none "").1.options.FirstArgAlternativeForFlag
        = some { Flag := "database", Value := none } ∧
    FlagSet.GetString (exRegistered none "").1.command.pflags (exRegistered none "").2 "database"
        = ("", none) ∧
    (exRegistered none "").1.run (exRegistered none "").2 ("mydb" :: [])
        = .panic (.str "Must set Value") (exRegistered none "").2 ∧
    (exRegistered none "").1.run (exRegistered none "").2 []
        = Cmd.run.callback (exRegistered none "").1 (exRegistered none "").2 ∧
    (exCmd none).run exWorld [] = .ok exWorld :=
  ⟨rfl, rfl,
    (run_nil_value_panics (exRegistered none "").1 (exRegistered none "").2 "database" rfl).1
      "mydb" [] rfl,
    (run_nil_value_panics (exRegistered none "").1 (exRegistered none "").2 "database" rfl).2.1,
    (run_nil_value_panics (exCmd none) exWorld "database" rfl).2.2.1 rfl⟩

/-- C8, instance of the amended statement: the integer flag `--port`,
shorthand `-p`, default 1433, on a command that has `--database` already. -/
theorem AddFlag_registers_one_witness :
    exPortFlag.Name ≠ "" ∧ exPortFlag.Usage ≠ "" ∧ exPortFlag.populated = 1 ∧
    FlagSet.Lookup (exRegistered (some 0) "").1.command.pflags exPortFlag.Name = none ∧
    (exPortFlag.Shorthand = "" ∨
      (exPortFlag.Shorthand.utf8ByteSize ≤ 1 ∧
        (exRegistered (some 0) "").1.command.pflags.shorthands.lookup exPortFlag.Shorthand
          = none)) ∧
    ∃ (fl : Flag) (w2 : World),
      (exRegistered (some 0) "").1.AddFlag (exRegistered (some 0) "").2 exPortFlag
        = .ok ({ (exRegistered (some 0) "").1 with command :=
            { (exRegistered (some 0) "").1.command with pflags :=
              { formal := (exRegistered (some 0) "").1.command.pflags.formal ++ [fl],
                shorthands :=
                  if exPortFlag.Shorthand = "" then
                    (exRegistered (some 0) "").1.command.pflags.shorthands
                  else (exRegistered (some 0) "").1.command.pflags.shorthands ++
                    [(exPortFlag.Shorthand, exPortFlag.Name)] } } }, w2) ∧
      fl.Name = exPortFlag.Name ∧ fl.Usage = exPortFlag.Usage ∧
      fl.Shorthand = exPortFlag.Shorthand ∧ fl.Changed = false ∧
      (∀ p, exPortFlag.String = some p →
        fl.Value = .string p ∧ fl.DefValue = .string exPortFlag.DefaultString ∧
          w2 = (exRegistered (some 0) "").2.setStr p exPortFlag.DefaultString) ∧
      (∀ p, exPortFlag.Int = some p →
        fl.Value = .int p ∧ fl.DefValue = .int exPortFlag.DefaultInt ∧
          w2 = (exRegistered (some 0) "").2.setInt p exPortFlag.DefaultInt) ∧
      (∀ p, exPortFlag.Bool = some p →
        fl.Value = .bool p ∧ fl.DefValue = .bool exPortFlag.DefaultBool ∧
          w2 = (exRegistered (some 0) "").2.setBool p exPortFlag.DefaultBool) :=
  ⟨by decide, by decide, by decide, by decide, by decide,
    AddFlag_registers_one (exRegistered (some 0) "").1 (exRegistered (some 0) "").2 exPortFlag
      (by decide) (by decide) (by decide) (by decide) (by decide)⟩

/-- C8, counterexample: three requests with a name, a usage text and exactly
one kind slot populated on which `AddFlag` does not return normally, because
the engine refuses the registration: `--database` on a command that has
`--database` already, `--database` with the two-byte shorthand `db`, and
`--password` with the shorthand `-p` that `--port` owns. In the last two the
flag is in the set when the panic is raised. -/
theorem AddFlag_engine_refuses :
    (exDatabaseFlag "").Name ≠ "" ∧ (exDatabaseFlag "").Usage ≠ "" ∧
    (exDatabaseFlag "").populated = 1 ∧
    ((exRegistered (some 0) "").1.AddFlag (exRegistered (some 0) "").2 (exDatabaseFlag "")).panicValue
        = some (.engine (.flagRedefined "database")) ∧
    ((exRegistered (some 0) "").1.AddFlag (exRegistered (some 0) "").2
        (exDatabaseFlag "")).state.1.command.pflags
        = (exRegistered (some 0) "").1.command.pflags ∧
    exLongShorthand.Name ≠ "" ∧ exLongShorthand.Usage ≠ "" ∧ exLongShorthand.populated = 1 ∧
    ((exCmd (some 0)).AddFlag exWorld exLongShorthand).panicValue
        = some (.engine (.shorthandTooLong "db")) ∧
    (((exCmd (some 0)).AddFlag exWorld exLongShorthand).state.1.command.pflags.formal.map
        Flag.Name) = ["database"] ∧
    exPasswordFlag.Name ≠ "" ∧ exPasswordFlag.Usage ≠ "" ∧ exPasswordFlag.populated = 1 ∧
    (exPortRegistered.1.AddFlag exPortRegistered.2 exPasswordFlag).panicValue
        = some (.engine (.shorthandInUse "p" "port")) ∧
    ((exPortRegistered.1.AddFlag exPortRegistered.2 exPasswordFlag).state.1.command.pflags.formal.map
        Flag.Name) = ["port", "password"] :=
  by
  repeat' constructor
  all_goals decide

/-- C9, instance: under `go test` a non-nil error becomes a panic carrying it;
in a normal run it goes to `cobra.CheckErr`. -/
theorem CheckErr_policy_witness :
    Cmd.CheckErr.inUnitTest exTestWorld = true ∧
    (exCmd none).CheckErr exTestWorld (some "boom") = .panic (.err "boom") exTestWorld ∧
    Cmd.CheckErr.inUnitTest exWorld = false ∧
    (exCmd none).CheckErr exWorld (some "boom") = cobra.CheckErr (some "boom") exWorld :=
  ⟨by decide,
    ((CheckErr_policy (exCmd none) exTestWorld (some "boom")).2.1 (by decide)).1 "boom" rfl,
    by decide,
    ((CheckErr_policy (exCmd none) exWorld (some "boom")).2.2 (by decide)).1⟩

/-- C10, instance: the options of `use` (alias record set, `Long` empty), and
the same options with an empty `Use`. -/
theorem DefineCommand_builds_witness :
    (exOptions (some 0)).Use ≠ "" ∧
    (∃ d : Cmd,
      ({ options := exOptions (some 0), command := cobra.Command.zero, output := ⟨0⟩ } : Cmd).DefineCommand
          ⟨1⟩ [] = .ok d ∧
      d.command.Args = some (.MaximumNArgs 1) ∧ d.command.Long = "Use a database") ∧
    ({ options := { exOptions (some 0) with Use := "" }, command := cobra.Command.zero,
        output := ⟨0⟩ } : Cmd).DefineCommand ⟨1⟩ [exCmd none]
      = .panic (.str "Must implement command definition")
          { options := { exOptions (some 0) with Use := "" }, command := cobra.Command.zero,
            output := ⟨0⟩ } := by
  refine ⟨by decide, ?_, ?_⟩
  · obtain ⟨d, h1, h2, _, h4⟩ :=
      (DefineCommand_builds
        { options := exOptions (some 0), command := cobra.Command.zero, output := ⟨0⟩ } ⟨1⟩ []).1
        (by decide)
    exact ⟨d, h1, h2, h4⟩
  · exact (DefineCommand_builds
      { options := { exOptions (some 0) with Use := "" }, command := cobra.Command.zero,
        output := ⟨0⟩ } ⟨1⟩ [exCmd none]).2 rfl

end cmdparser
